import Mathlib

/-!
Verification of the WAMS (Workspaces Across Multiple Surfaces) shared
utilities and message layer, as a shallow embedding in Lean.

The embedding covers:
  * JavaScript objects as ordered association lists of own enumerable
    properties, together with `hasOwnProperty`, property read, and
    property assignment.
  * The `Message` class and its closed `TYPES` enumeration
    (src/mixins/Publishable.js).
  * The `Publishable` mixin's publish / deferred-emit scheduling
    discipline, modelled as a small state machine over the scheduled
    flag, the count of queued `setImmediate` callbacks, and the count of
    completed emissions.
  * The shared utilities module: `initialize`, `removeByID`,
    `safeRemoveByID`, the `IDStamper` (including the exact semantics of
    `Object.defineProperty` on a non-configurable, non-writable
    property, and the IEEE-754 behaviour of `x + 1` at the
    2^53 integer ceiling), and the reporter class factory's `assign`.
-/

namespace WAMS

/-- JavaScript primitive values, as far as the verified code inspects them.
Numbers that occur in the verified paths are always integers (ids and
reporter field values), so they are modelled as `Int`. -/
inductive JSVal where
  | undefined
  | null
  | num (n : Int)
  | str (s : String)
  | bool (b : Bool)
deriving DecidableEq, Repr

/-- A JavaScript object, modelled as the ordered list of its own enumerable
properties (key / value pairs). Genuine objects never hold two properties
with the same key; reads find the first occurrence, so the model agrees
with JavaScript on every object that satisfies that invariant. -/
abbrev JSObj := List (String × JSVal)

/-- Property read `o[k]`, restricted to own properties: the value of the
first property named `k`, or `none` when `k` is not an own property.
A property whose stored value is `undefined` reads as `some .undefined`,
which keeps it distinct from an absent property. -/
def getOwn : JSObj → String → Option JSVal
  | [], _ => none
  | (k', v) :: o, k => if k' = k then some v else getOwn o k

/-- The `hasOwnProperty` check: a key is an own property exactly when a
read of it finds a stored value (possibly `undefined`). -/
def hasOwn (o : JSObj) (k : String) : Bool :=
  (getOwn o k).isSome

/-- Property assignment `o[k] = v` on a plain data object: overwrite the
existing property in place when present, otherwise append a new property
at the end (JavaScript insertion order for string keys). -/
def setProp : JSObj → String → JSVal → JSObj
  | [], k, v => [(k, v)]
  | (k', w) :: o, k, v =>
      if k' = k then (k, v) :: o else (k', w) :: setProp o k v

/-- `Object.keys(o)`: the ordered list of own enumerable property keys. -/
def jsKeys (o : JSObj) : List String :=
  o.map (·.1)

/-- Exceptions thrown by the verified code paths. -/
inductive JSError where
  | typeError (msg : String)
  | thrown (msg : String)
deriving DecidableEq, Repr

/-! ### Message (src/mixins/Publishable.js, Message section) -/

/-- The frozen values of the `TYPES` enumeration, in source order:
`TYPE_VALUES = Object.freeze(Object.values(TYPES))`. These are the only
strings accepted as message types. -/
def TYPE_VALUES : List String := [
  "wams-add-element",
  "wams-add-image",
  "wams-add-item",
  "wams-add-shadow",
  "wams-remove-item",
  "wams-remove-shadow",
  "wams-update-item",
  "wams-update-shadow",
  "wams-update-view",
  "wams-remove-attributes",
  "wams-set-attributes",
  "wams-set-image",
  "wams-set-render",
  "wams-initialize",
  "wams-layout",
  "wams-full",
  "wams-click",
  "wams-resize",
  "wams-swipe",
  "wams-track",
  "wams-transform",
  "wams-pointer",
  "wams-blur",
  "wams-image-loaded"
]

/-- A constructed `Message`: the validated `type` tag together with the
reporter object stored by the constructor. The reporter type is left as a
parameter because the constructor never inspects it. -/
structure Message (R : Type) where
  type : String
  reporter : R
deriving DecidableEq, Repr

/-- The `Message` constructor: `if (!TYPE_VALUES.includes(type)) throw new
TypeError('Invalid message type!')`, otherwise store `type` and
`reporter` on the new instance. -/
def Message.make {R : Type} (type : String) (reporter : R) :
    Except JSError (Message R) :=
  if TYPE_VALUES.contains type then .ok ⟨type, reporter⟩
  else .error (.typeError "Invalid message type!")

/-- A reporter as seen by `Message.emitWith`: either it provides a
`report()` method, whose (pure) result is the snapshot object, or it
lacks the capability, in which case calling `this.reporter.report()`
throws a TypeError. -/
structure ReporterObj where
  reportFn : Option JSObj
deriving DecidableEq, Repr

/-- `emitWith(emitter)`: `emitter.emit(this.type, this.reporter.report())`.
The result is the list of `emit` calls performed on the channel, each
recorded as its (type string, snapshot) argument pair; the call throws
before emitting anything when the reporter lacks `report()`. -/
def Message.emitWith (m : Message ReporterObj) :
    Except JSError (List (String × JSObj)) :=
  match m.reporter.reportFn with
  | some snapshot => .ok [(m.type, snapshot)]
  | none => .error (.typeError "this.reporter.report is not a function")

/-! ### Publishable mixin (src/mixins/Publishable.js) -/

/-- The observable state of one `Publishable` entity inside one node.js
process: the `[symbols.scheduled]` flag, the number of `setImmediate`
callbacks of this entity currently queued, and the number of completed
calls to the entity's `emitPublication()`. -/
structure PubState where
  scheduled : Bool
  queued : Nat
  emitted : Nat
deriving DecidableEq, Repr

/-- `publish()`: when the entity is not yet scheduled, set the flag and
enqueue one deferred emission via `setImmediate`; otherwise do nothing. -/
def publish (s : PubState) : PubState :=
  if s.scheduled then s
  else { s with scheduled := true, queued := s.queued + 1 }

/-- The first statement of the deferred `[symbols.emit]` callback:
`this[symbols.scheduled] = false`. -/
def clearScheduled (s : PubState) : PubState :=
  { s with scheduled := false }

/-- An `emitPublication()` implementation that just performs the emission
(the mixin's contract for a conforming subclass), counted in `emitted`. -/
def emitPublicationCount (s : PubState) : PubState :=
  { s with emitted := s.emitted + 1 }

/-- The deferred `[symbols.emit]` callback body: clear the scheduled flag
first, then invoke the entity's `emitPublication()` (here an arbitrary
implementation `emitPublication`, since the mixin leaves it abstract). -/
def emitCallback (emitPublication : PubState → PubState) (s : PubState) :
    PubState :=
  emitPublication (clearScheduled s)

/-- Run one queued `setImmediate` callback of this entity, if any: dequeue
it and execute the deferred emit body. -/
def flushOne (emitPublication : PubState → PubState) (s : PubState) :
    PubState :=
  match s.queued with
  | 0 => s
  | q + 1 => emitCallback emitPublication { s with queued := q }

/-! ### IDStamper (shared utilities) -/

/-- IEEE-754 double-precision `x + 1` for a natural number `x ≤ 2^53`:
exact while `x < 2^53`; at `x = 2^53` the sum `2^53 + 1` is not
representable and rounds (to nearest, ties to even) back to `2^53`.
The id counter never leaves this range, because it only advances while
`willNotOverflow` holds. -/
def jsAddOne (x : Nat) : Nat :=
  if x < 2 ^ 53 then x + 1 else x

/-- `willNotOverflow(x)`: `x + 1 > x` under JavaScript number
arithmetic. -/
def willNotOverflow (x : Nat) : Bool :=
  x < jsAddOne x

/-- One `next()` call of the `id_gen` generator, as a step function on the
current value of `next_id`: while `willNotOverflow(next_id)` the
generator yields `++next_id`; once the guard fails it finishes, and
`next().value` is `undefined` (`none` here) from then on. -/
def genNext (next_id : Nat) : Option Nat × Nat :=
  if willNotOverflow next_id then (some (jsAddOne next_id), jsAddOne next_id)
  else (none, next_id)

/-- The value that `stamp(obj, id)` writes: `id === undefined ?
this[gen].next().value : id`. A finished generator contributes
`undefined`. -/
def stampValue (counter : Nat) (id : JSVal) : JSVal :=
  if id = JSVal.undefined then
    match (genNext counter).1 with
    | some n => JSVal.num (Int.ofNat n)
    | none => JSVal.undefined
  else id

/-- The generator state after `stamp(obj, id)`: the generator is consulted
only when no explicit id is supplied. -/
def stampCounter (counter : Nat) (id : JSVal) : Nat :=
  if id = JSVal.undefined then (genNext counter).2 else counter

/-- `Object.defineProperty(obj, 'id', { value: v, configurable: false,
enumerable: true, writable: false })`, specialised to an object whose
`id` property, when present, was installed by this same call and so
carries exactly these attributes. Per the ValidateAndApplyPropertyDescriptor
algorithm, redefining such a non-configurable, non-writable property
succeeds only when the new value is the same value; otherwise a
TypeError is thrown and the object is left untouched. -/
def defineIdProperty (idSlot : Option JSVal) (v : JSVal) :
    Except JSError JSVal :=
  match idSlot with
  | none => .ok v
  | some w =>
      if v = w then .ok w
      else .error (.typeError "Cannot redefine property: id")

/-- Result of a successful `stamp` call: the object's `id` slot afterwards,
the generator state afterwards, and the returned `obj.id`. -/
structure StampResult where
  idSlot : Option JSVal
  counter : Nat
  returned : JSVal
deriving DecidableEq, Repr

/-- `IDStamper.prototype.stamp(obj, id)`: define the immutable `id`
property with the generated or explicit value, then return `obj.id`.
The target object is represented by its `id` slot (`none` when the
object has never been stamped). -/
def stamp (counter : Nat) (idSlot : Option JSVal) (id : JSVal) :
    Except JSError StampResult :=
  match defineIdProperty idSlot (stampValue counter id) with
  | .ok v => .ok ⟨some v, stampCounter counter id, v⟩
  | .error e => .error e

/-! ### Shared utility functions -/

/-- The utility `initialize(defaults, data)` (renamed here because the
source name is reserved in Lean): build a fresh object `rv`, and for each
own key `k` of `defaults` set `rv[k]` to `data[k]` when `data` has `k`
as an own property and to `defaults[k]` otherwise. -/
def initializeObj (defaults data : JSObj) : JSObj :=
  (jsKeys defaults).foldl
    (fun rv k =>
      setProp rv k
        (if hasOwn data k then (getOwn data k).getD JSVal.undefined
         else (getOwn defaults k).getD JSVal.undefined))
    []

/-- The reporter class factory's `assign(data)`: for each declared core
property `p`, copy `data[p]` onto the instance exactly when `data` has
`p` as an own property; no other key of `data` is touched. -/
def assign (coreProperties : List String) (data inst : JSObj) : JSObj :=
  coreProperties.foldl
    (fun acc p =>
      if hasOwn data p then setProp acc p ((getOwn data p).getD JSVal.undefined)
      else acc)
    inst

/-- An element stored in one of the workspace's arrays, as far as
`removeByID` inspects it: its `id` property plus opaque remaining
state, which lets two elements with equal ids stay distinguishable. -/
structure Elem where
  id : JSVal
  rest : JSVal := JSVal.undefined
deriving DecidableEq, Repr

/-- `removeByID(array, item)`: locate the first element whose `id` is
strictly equal to `item.id` with `findIndex`; splice it out and return
`true`, or return `false` leaving the array untouched. The pair holds
the returned boolean and the array contents afterwards. -/
def removeByID (array : List Elem) (item : Elem) : Bool × List Elem :=
  match array.findIdx? (fun o => o.id == item.id) with
  | some idx => (true, array.eraseIdx idx)
  | none => (false, array)

/-- `safeRemoveByID(array, item, class_fn)`: throw when `item` is not an
instance of `class_fn` (the `instanceof` outcome is passed in as
`isInstance`), otherwise delegate to `removeByID`. The pair holds the
call's outcome and the array contents afterwards. -/
def safeRemoveByID (array : List Elem) (item : Elem) (isInstance : Bool) :
    Except String Bool × List Elem :=
  if isInstance then
    (.ok (removeByID array item).1, (removeByID array item).2)
  else (.error "Invalid class received.", array)

/-! ### Basic lemmas about the object model -/

theorem getOwn_setProp (o : JSObj) (k : String) (v : JSVal) (k' : String) :
    getOwn (setProp o k v) k' = if k = k' then some v else getOwn o k' := by
  induction o with
  | nil => simp [setProp, getOwn]
  | cons p o ih =>
    obtain ⟨pk, pv⟩ := p
    by_cases h : pk = k
    · subst h
      simp only [setProp, if_pos rfl, getOwn]
      by_cases h2 : pk = k' <;> simp [h2]
    · by_cases h' : pk = k'
      · subst h'
        simp [setProp, getOwn, h, Ne.symm h]
      · simp [setProp, getOwn, h, h', ih]

theorem hasOwn_setProp (o : JSObj) (k : String) (v : JSVal) (k' : String) :
    hasOwn (setProp o k v) k' = (decide (k = k') || hasOwn o k') := by
  simp only [hasOwn, getOwn_setProp]
  by_cases h : k = k' <;> simp [h]

theorem getOwn_getD_of_hasOwn (o : JSObj) (k : String) (h : hasOwn o k = true) :
    getOwn o k = some ((getOwn o k).getD JSVal.undefined) := by
  simp only [hasOwn, Option.isSome_iff_exists] at h
  obtain ⟨v, hv⟩ := h
  simp [hv]

theorem mem_jsKeys_iff_hasOwn (o : JSObj) (k : String) :
    k ∈ jsKeys o ↔ hasOwn o k = true := by
  induction o with
  | nil => simp [jsKeys, hasOwn, getOwn]
  | cons p o ih =>
    obtain ⟨pk, pv⟩ := p
    by_cases h : pk = k
    · subst h
      simp [jsKeys, hasOwn, getOwn]
    · have h' : ¬(k = pk) := fun hh => h hh.symm
      simpa [jsKeys, hasOwn, getOwn, h, h'] using ih

theorem setProp_of_not_hasOwn (o : JSObj) (k : String) (v : JSVal)
    (h : hasOwn o k = false) : setProp o k v = o ++ [(k, v)] := by
  induction o with
  | nil => simp [setProp]
  | cons p o ih =>
    obtain ⟨pk, pv⟩ := p
    by_cases hk : pk = k
    · subst hk
      simp [hasOwn, getOwn] at h
    · simp only [hasOwn, getOwn, hk, if_false] at h
      simp [setProp, hk, ih h]

theorem getOwn_foldl_setProp (g : String → JSVal) (ks : List String)
    (acc : JSObj) (k : String) :
    getOwn (ks.foldl (fun rv k' => setProp rv k' (g k')) acc) k =
      if k ∈ ks then some (g k) else getOwn acc k := by
  induction ks generalizing acc with
  | nil => simp
  | cons k0 ks ih =>
    simp only [List.foldl_cons, ih, getOwn_setProp]
    by_cases hks : k ∈ ks
    · simp [hks]
    · by_cases hk0 : k = k0
      · subst hk0
        simp [hks]
      · have h2 : ¬(k0 = k) := fun h => hk0 h.symm
        simp [hks, hk0, h2]

theorem jsKeys_foldl_setProp (g : String → JSVal) (ks : List String)
    (acc : JSObj) (hnd : ks.Nodup) (hdisj : ∀ k ∈ ks, hasOwn acc k = false) :
    jsKeys (ks.foldl (fun rv k' => setProp rv k' (g k')) acc) =
      jsKeys acc ++ ks := by
  induction ks generalizing acc with
  | nil => simp
  | cons k0 ks ih =>
    have h0 : hasOwn acc k0 = false := hdisj k0 (by simp)
    have hstep : setProp acc k0 (g k0) = acc ++ [(k0, g k0)] :=
      setProp_of_not_hasOwn acc k0 (g k0) h0
    have hnd' : ks.Nodup := hnd.of_cons
    have hdisj' : ∀ k ∈ ks, hasOwn (setProp acc k0 (g k0)) k = false := by
      intro k hk
      have hne : k ≠ k0 := by
        rintro rfl
        exact (List.nodup_cons.mp hnd).1 hk
      have hne' : ¬(k0 = k) := fun h => hne h.symm
      rw [hasOwn_setProp]
      simp [hne', hdisj k (by simp [hk])]
    rw [List.foldl_cons, ih _ hnd' hdisj', hstep]
    simp [jsKeys]

theorem getOwn_assign (props : List String) (data inst : JSObj) (k : String) :
    getOwn (assign props data inst) k =
      if k ∈ props ∧ hasOwn data k = true then getOwn data k
      else getOwn inst k := by
  induction props generalizing inst with
  | nil => simp [assign]
  | cons p props ih =>
    simp only [assign, List.foldl_cons] at ih ⊢
    rw [ih]
    by_cases hmem : k ∈ props ∧ hasOwn data k = true
    · simp [hmem, hmem.1]
    · by_cases hp : k = p
      · subst hp
        by_cases hd : hasOwn data k = true
        · have hm : k ∈ k :: props := List.mem_cons_self k props
          rw [if_neg hmem, if_pos hd, getOwn_setProp, if_pos rfl, if_pos ⟨hm, hd⟩]
          exact (getOwn_getD_of_hasOwn data k hd).symm
        · have hc : ¬(k ∈ k :: props ∧ hasOwn data k = true) := fun h => hd h.2
          rw [if_neg hmem, if_neg hd, if_neg hc]
      · have hcons : ¬(k ∈ p :: props ∧ hasOwn data k = true) := by
          rintro ⟨hin, hd⟩
          rcases List.mem_cons.mp hin with h | h
          · exact hp h
          · exact hmem ⟨h, hd⟩
        rw [if_neg hmem, if_neg hcons]
        by_cases hdp : hasOwn data p = true
        · have hpk : ¬(p = k) := fun h => hp h.symm
          rw [if_pos hdp, getOwn_setProp, if_neg hpk]
        · rw [if_neg hdp]

/-! ### List lemmas for removeByID -/

theorem findIdx?_first_match {α : Type} (p : α → Bool) (pre : List α) (x : α)
    (post : List α) (hpre : ∀ y ∈ pre, p y = false) (hx : p x = true) :
    List.findIdx? p (pre ++ x :: post) = some pre.length := by
  induction pre with
  | nil => simp [List.findIdx?_cons, hx]
  | cons a pre ih =>
    have ha : p a = false := hpre a (by simp)
    have ih' := ih (fun y hy => hpre y (by simp [hy]))
    simp [List.findIdx?_cons, ha, List.findIdx?_succ, ih']

theorem findIdx?_no_match {α : Type} (p : α → Bool) (l : List α)
    (h : ∀ y ∈ l, p y = false) : List.findIdx? p l = none := by
  induction l with
  | nil => simp
  | cons a l ih =>
    have ha : p a = false := h a (by simp)
    have ih' := ih (fun y hy => h y (by simp [hy]))
    simp [List.findIdx?_cons, ha, List.findIdx?_succ, ih']

theorem eraseIdx_append_length {α : Type} (pre : List α) (x : α)
    (post : List α) : (pre ++ x :: post).eraseIdx pre.length = pre ++ post := by
  induction pre with
  | nil => simp
  | cons a pre ih => simp [List.eraseIdx, ih]

/-! ### Claim theorems -/

/-- C1: for every string s and any reporter r, constructing new Message(s, r)
throws a TypeError (and constructs nothing) if and only if s is not one of
the 24 enumerated wire-protocol type strings; when s is one of them,
construction succeeds and the resulting message's type field equals s. -/
theorem claim1_message_type_validation {R : Type} (s : String) (r : R) :
    (s ∉ TYPE_VALUES →
        Message.make s r = .error (.typeError "Invalid message type!"))
  ∧ (s ∈ TYPE_VALUES → Message.make s r = .ok ⟨s, r⟩)
  ∧ TYPE_VALUES.length = 24 ∧ TYPE_VALUES.Nodup := by
  refine ⟨?_, ?_, by decide, by decide⟩
  · intro h
    simp [Message.make, h]
  · intro h
    simp [Message.make, h]

/-- Witness for C1: the valid type string "wams-click" constructs a message
carrying that type, and the invalid string "evil" throws a TypeError. -/
theorem claim1_witness :
    Message.make "wams-click" (ReporterObj.mk none) =
      .ok ⟨"wams-click", ReporterObj.mk none⟩
  ∧ Message.make "evil" (ReporterObj.mk none) =
      .error (.typeError "Invalid message type!") :=
  ⟨(claim1_message_type_validation "wams-click" (ReporterObj.mk none)).2.1
      (by decide),
   (claim1_message_type_validation "evil" (ReporterObj.mk none)).1
      (by decide)⟩

/-- C2: for every reporter instance whose declared field set is F, assign(data)
copies onto the instance exactly the values of keys in F that data has as
own properties; keys of data outside F never appear on the instance, and
declared fields absent from data are left unchanged. -/
theorem claim2_assign_copies_only_declared_fields (props : List String)
    (data inst : JSObj) (k : String) :
    (k ∈ props → hasOwn data k = true →
        getOwn (assign props data inst) k = getOwn data k)
  ∧ (k ∈ props → hasOwn data k = false →
        getOwn (assign props data inst) k = getOwn inst k)
  ∧ (k ∉ props →
        getOwn (assign props data inst) k = getOwn inst k
      ∧ hasOwn (assign props data inst) k = hasOwn inst k) := by
  have hg := getOwn_assign props data inst k
  refine ⟨?_, ?_, ?_⟩
  · intro hk hd
    rw [hg, if_pos ⟨hk, hd⟩]
  · intro hk hd
    have hni : ¬(k ∈ props ∧ hasOwn data k = true) := by
      rintro ⟨-, hcon⟩
      rw [hd] at hcon
      cases hcon
    rw [hg, if_neg hni]
  · intro hk
    have hni : ¬(k ∈ props ∧ hasOwn data k = true) := fun hcon => hk hcon.1
    constructor
    · rw [hg, if_neg hni]
    · simp only [hasOwn]
      rw [hg, if_neg hni]

/-- Witness for C2: on a reporter declaring only x and y, assigning
data with x = 5 and an extra evil key sets x to 5 and leaves the
instance without any evil property. -/
theorem claim2_witness :
    getOwn
        (assign ["x", "y"]
          [("x", JSVal.num 5), ("evil", JSVal.str "payload")]
          [("x", JSVal.null), ("y", JSVal.null)]) "x" = some (JSVal.num 5)
  ∧ hasOwn
        (assign ["x", "y"]
          [("x", JSVal.num 5), ("evil", JSVal.str "payload")]
          [("x", JSVal.null), ("y", JSVal.null)]) "evil" = false := by
  constructor
  · have h :=
      (claim2_assign_copies_only_declared_fields ["x", "y"]
        [("x", JSVal.num 5), ("evil", JSVal.str "payload")]
        [("x", JSVal.null), ("y", JSVal.null)] "x").1 (by decide) (by decide)
    rw [h]
    decide
  · have h :=
      ((claim2_assign_copies_only_declared_fields ["x", "y"]
        [("x", JSVal.num 5), ("evil", JSVal.str "payload")]
        [("x", JSVal.null), ("y", JSVal.null)] "evil").2.2 (by decide)).2
    rw [h]
    decide

/-- C3: for every Publishable entity and every N > 1 (indeed N ≥ 1), calling
publish() N times within one synchronous turn leaves exactly one deferred
emission queued, the repeat calls are no-ops on the state, and the turn's
deferred flush then performs exactly one call to the entity's emit
operation. -/
theorem claim3_publish_coalesces_per_turn (n e : Nat) (hn : 1 ≤ n) :
    publish^[n] ⟨false, 0, e⟩ = ⟨true, 1, e⟩
  ∧ (∀ s : PubState, s.scheduled = true → publish s = s)
  ∧ flushOne emitPublicationCount (publish^[n] ⟨false, 0, e⟩) =
      ⟨false, 0, e + 1⟩ := by
  have hstep : publish ⟨false, 0, e⟩ = ⟨true, 1, e⟩ := by
    simp [publish]
  have hfix : publish ⟨true, 1, e⟩ = ⟨true, 1, e⟩ := by
    simp [publish]
  have h1 : publish^[n] ⟨false, 0, e⟩ = ⟨true, 1, e⟩ := by
    cases n with
    | zero => omega
    | succ m =>
        rw [Function.iterate_succ_apply, hstep, Function.iterate_fixed hfix]
  refine ⟨h1, ?_, ?_⟩
  · intro s hs
    simp [publish, hs]
  · rw [h1]
    simp [flushOne, emitCallback, clearScheduled, emitPublicationCount]

/-- Witness for C3: publishing three times from an idle state queues exactly
one deferred emission, and the flush performs exactly one emission. -/
theorem claim3_witness :
    publish^[3] ⟨false, 0, 0⟩ = ⟨true, 1, 0⟩
  ∧ flushOne emitPublicationCount (publish^[3] ⟨false, 0, 0⟩) =
      ⟨false, 0, 1⟩ :=
  ⟨(claim3_publish_coalesces_per_turn 3 0 (by decide)).1,
   (claim3_publish_coalesces_per_turn 3 0 (by decide)).2.2⟩

/-- C4: the deferred emission first clears the scheduled flag and only then
invokes the entity's emit operation, so a publish() call made during the
emission itself schedules a new future emission instead of being
discarded: flushing one queued callback whose emitPublication republishes
leaves the entity scheduled with one new queued emission. -/
theorem claim4_emit_clears_flag_before_emitting
    (emitP : PubState → PubState) (s : PubState) (q e : Nat) :
    emitCallback emitP s = emitP { s with scheduled := false }
  ∧ flushOne (fun t => publish (emitPublicationCount t)) ⟨true, q + 1, e⟩ =
      ⟨true, q + 1, e + 1⟩ := by
  constructor
  · rfl
  · simp [flushOne, emitCallback, clearScheduled, emitPublicationCount,
      publish]

/-- C5 counterexample: re-stamping an already-stamped object can throw. An
object stamped with id 1 by a stamper whose counter stands at 1 is
re-stamped without an explicit id: the generator yields 2, and
Object.defineProperty rejects redefining the non-configurable,
non-writable id property with a different value, throwing a TypeError. -/
theorem claim5_counterexample :
    stamp 1 (some (JSVal.num 1)) JSVal.undefined =
      .error (.typeError "Cannot redefine property: id") := by
  rfl

/-- C5 amended: re-stamping an already-stamped object never changes its id
field, but it completes normally only when the id being stamped (the
explicit one, or the freshly generated one when no explicit id is given)
equals the existing id; whenever the two differ, the attempted
redefinition throws a TypeError instead of being silently discarded. -/
theorem claim5_restamp_throws_unless_same_id (counter : Nat) (w id : JSVal) :
    (stampValue counter id = w →
        stamp counter (some w) id =
          .ok ⟨some w, stampCounter counter id, w⟩)
  ∧ (stampValue counter id ≠ w →
        stamp counter (some w) id =
          .error (.typeError "Cannot redefine property: id")) := by
  constructor
  · intro h
    simp [stamp, defineIdProperty, h]
  · intro h
    simp [stamp, defineIdProperty, h]

/-- Witness for the amended C5: re-stamping an object holding id 1 with the
explicit id 1 succeeds and leaves the id slot unchanged. -/
theorem claim5_witness :
    stamp 0 (some (JSVal.num 1)) (JSVal.num 1) =
      .ok ⟨some (JSVal.num 1), 0, JSVal.num 1⟩ := by
  have h :=
    (claim5_restamp_throws_unless_same_id 0 (JSVal.num 1) (JSVal.num 1)).1
      (by decide)
  simpa using h

/-- C6: the claim requires a detectable fatal allocation error at counter
exhaustion, but the code diverges. Once the counter reaches 2^53, where
IEEE-754 addition of 1 no longer increases the value, the id_gen
generator finishes; next().value is then undefined, and stamp() silently
defines id = undefined on the object and returns undefined — no error is
thrown, and every subsequently stamped object receives this same invalid
id. -/
theorem claim6_counter_exhaustion_is_silent :
    stamp (2 ^ 53) none JSVal.undefined =
      .ok ⟨some JSVal.undefined, 2 ^ 53, JSVal.undefined⟩ := by
  rfl

/-- C7: for a single stamper, successive calls to stamp() without an explicit
id (before counter exhaustion) return distinct, strictly increasing,
positive integer ids, and the very first generated id is 1. -/
theorem claim7_generated_ids_unique_increasing_positive (c : Nat)
    (h : c + 1 < 2 ^ 53) :
    stamp c none JSVal.undefined =
      .ok ⟨some (JSVal.num (Int.ofNat (c + 1))), c + 1,
        JSVal.num (Int.ofNat (c + 1))⟩
  ∧ stamp (c + 1) none JSVal.undefined =
      .ok ⟨some (JSVal.num (Int.ofNat (c + 2))), c + 2,
        JSVal.num (Int.ofNat (c + 2))⟩
  ∧ JSVal.num (Int.ofNat (c + 1)) ≠ JSVal.num (Int.ofNat (c + 2))
  ∧ c + 1 < c + 2 ∧ 0 < c + 1
  ∧ stamp 0 none JSVal.undefined =
      .ok ⟨some (JSVal.num 1), 1, JSVal.num 1⟩ := by
  have h0 : c < 2 ^ 53 := by omega
  have hlt : c < c + 1 := Nat.lt_succ_self c
  have hlt' : c + 1 < c + 1 + 1 := Nat.lt_succ_self (c + 1)
  have hgen1 : genNext c = (some (c + 1), c + 1) := by
    unfold genNext willNotOverflow jsAddOne
    rw [if_pos h0]
    simp [hlt]
  have hgen2 : genNext (c + 1) = (some (c + 2), c + 2) := by
    unfold genNext willNotOverflow jsAddOne
    rw [if_pos h]
    simp [hlt']
  refine ⟨?_, ?_, by simp, by omega, by omega, by rfl⟩
  · simp [stamp, stampValue, stampCounter, hgen1, defineIdProperty]
  · simp [stamp, stampValue, stampCounter, hgen2, defineIdProperty]

/-- Witness for C7: from a fresh stamper the first two generated ids are 1
and 2. -/
theorem claim7_witness :
    stamp 0 none JSVal.undefined =
      .ok ⟨some (JSVal.num 1), 1, JSVal.num 1⟩
  ∧ stamp 1 none JSVal.undefined =
      .ok ⟨some (JSVal.num 2), 2, JSVal.num 2⟩ := by
  have h := claim7_generated_ids_unique_increasing_positive 0 (by decide)
  exact ⟨h.1, by simpa using h.2.1⟩

/-- C8: for every valid message kind k, reporter with a report() capability,
and channel, new Message(k, r).emitWith(channel) calls channel.emit(k,
r.report()) exactly once (the emission trace is the single pair (k,
snapshot)); when the reporter lacks report(), construction still succeeds
and the failure occurs only when emitWith is called. -/
theorem claim8_emitWith_emits_exactly_once (k : String) (snapshot : JSObj)
    (hk : k ∈ TYPE_VALUES) :
    Message.make k (ReporterObj.mk (some snapshot)) =
      .ok ⟨k, ReporterObj.mk (some snapshot)⟩
  ∧ Message.emitWith ⟨k, ReporterObj.mk (some snapshot)⟩ =
      .ok [(k, snapshot)]
  ∧ Message.make k (ReporterObj.mk none) = .ok ⟨k, ReporterObj.mk none⟩
  ∧ Message.emitWith ⟨k, ReporterObj.mk none⟩ =
      .error (.typeError "this.reporter.report is not a function") := by
  refine ⟨?_, rfl, ?_, rfl⟩
  · simp [Message.make, hk]
  · simp [Message.make, hk]

/-- Witness for C8: a "wams-click" message over a reporter whose snapshot is
the empty object emits exactly that one packet, while a report-less
reporter fails only at emission time. -/
theorem claim8_witness :
    Message.emitWith ⟨"wams-click", ReporterObj.mk (some [])⟩ =
      .ok [("wams-click", [])]
  ∧ Message.make "wams-click" (ReporterObj.mk none) =
      .ok ⟨"wams-click", ReporterObj.mk none⟩ :=
  ⟨(claim8_emitWith_emits_exactly_once "wams-click" [] (by decide)).2.1,
   (claim8_emitWith_emits_exactly_once "wams-click" [] (by decide)).2.2.1⟩

/-- C9: for every defaults object and every data object, initialize(defaults,
data) returns a fresh object whose key set is exactly the own keys of
defaults; each such key takes data's value when data has it as an own
property and the default otherwise, and no key outside the defaults' key
set ever appears in the result. -/
theorem claim9_initialize_merges_over_defaults (defaults data : JSObj)
    (hnd : (jsKeys defaults).Nodup) :
    jsKeys (initializeObj defaults data) = jsKeys defaults
  ∧ (∀ k ∈ jsKeys defaults,
      getOwn (initializeObj defaults data) k =
        if hasOwn data k = true then getOwn data k else getOwn defaults k)
  ∧ (∀ k, k ∉ jsKeys defaults →
      hasOwn (initializeObj defaults data) k = false) := by
  have hkeys :
      jsKeys (initializeObj defaults data) = jsKeys defaults := by
    have h := jsKeys_foldl_setProp
      (fun k => if hasOwn data k = true then (getOwn data k).getD JSVal.undefined
        else (getOwn defaults k).getD JSVal.undefined)
      (jsKeys defaults) [] hnd (fun k _ => by simp [hasOwn, getOwn])
    simpa [initializeObj] using h
  have hget : ∀ k, getOwn (initializeObj defaults data) k =
      if k ∈ jsKeys defaults then
        some (if hasOwn data k = true then (getOwn data k).getD JSVal.undefined
          else (getOwn defaults k).getD JSVal.undefined)
      else none := by
    intro k
    have h := getOwn_foldl_setProp
      (fun k => if hasOwn data k = true then (getOwn data k).getD JSVal.undefined
        else (getOwn defaults k).getD JSVal.undefined)
      (jsKeys defaults) [] k
    simpa [initializeObj, getOwn] using h
  refine ⟨hkeys, ?_, ?_⟩
  · intro k hk
    rw [hget k, if_pos hk]
    by_cases hd : hasOwn data k = true
    · rw [if_pos hd, if_pos hd]
      exact (getOwn_getD_of_hasOwn data k hd).symm
    · rw [if_neg hd, if_neg hd]
      exact (getOwn_getD_of_hasOwn defaults k
        ((mem_jsKeys_iff_hasOwn defaults k).mp hk)).symm
  · intro k hk
    simp only [hasOwn]
    rw [hget k, if_neg hk]
    rfl

/-- Witness for C9: merging data with x present and an extra evil key over
defaults declaring x and y yields exactly the keys x and y, with x taken
from data, y from the defaults, and no evil key. -/
theorem claim9_witness :
    jsKeys (initializeObj [("x", JSVal.num 1), ("y", JSVal.num 2)]
        [("x", JSVal.num 5), ("evil", JSVal.str "payload")]) = ["x", "y"]
  ∧ getOwn (initializeObj [("x", JSVal.num 1), ("y", JSVal.num 2)]
        [("x", JSVal.num 5), ("evil", JSVal.str "payload")]) "x" =
      some (JSVal.num 5)
  ∧ hasOwn (initializeObj [("x", JSVal.num 1), ("y", JSVal.num 2)]
        [("x", JSVal.num 5), ("evil", JSVal.str "payload")]) "evil" =
      false := by
  have h := claim9_initialize_merges_over_defaults
    [("x", JSVal.num 1), ("y", JSVal.num 2)]
    [("x", JSVal.num 5), ("evil", JSVal.str "payload")] (by decide)
  refine ⟨?_, ?_, ?_⟩
  · rw [h.1]
    decide
  · rw [h.2.1 "x" (by decide)]
    decide
  · exact h.2.2 "evil" (by decide)

/-- C10: safeRemoveByID(array, item, C) throws and leaves the array unchanged
when item is not an instance of C; otherwise it removes exactly the first
element of the array whose id equals item.id and returns true, or returns
false and leaves the array unchanged when no element has that id. -/
theorem claim10_safeRemoveByID_removes_first_match (array pre post : List Elem)
    (item x : Elem) :
    safeRemoveByID array item false = (.error "Invalid class received.", array)
  ∧ (array = pre ++ x :: post → (∀ y ∈ pre, y.id ≠ item.id) →
        x.id = item.id →
        safeRemoveByID array item true = (.ok true, pre ++ post))
  ∧ ((∀ y ∈ array, y.id ≠ item.id) →
        safeRemoveByID array item true = (.ok false, array)) := by
  refine ⟨rfl, ?_, ?_⟩
  · rintro rfl hpre hx
    have hfid : List.findIdx? (fun o => o.id == item.id) (pre ++ x :: post) =
        some pre.length :=
      findIdx?_first_match _ pre x post
        (fun y hy => by simpa using hpre y hy) (by simpa using hx)
    simp [safeRemoveByID, removeByID, hfid, eraseIdx_append_length]
  · intro hall
    have hfid : List.findIdx? (fun o => o.id == item.id) array = none :=
      findIdx?_no_match _ _ (fun y hy => by simpa using hall y hy)
    simp [safeRemoveByID, removeByID, hfid]

/-- Witness for C10: removing the item with id 2 from a three-element array
deletes exactly the middle element and returns true. -/
theorem claim10_witness :
    safeRemoveByID
        [⟨JSVal.num 1, JSVal.undefined⟩, ⟨JSVal.num 2, JSVal.undefined⟩,
          ⟨JSVal.num 3, JSVal.undefined⟩]
        ⟨JSVal.num 2, JSVal.null⟩ true =
      (.ok true,
        [⟨JSVal.num 1, JSVal.undefined⟩, ⟨JSVal.num 3, JSVal.undefined⟩]) :=
  (claim10_safeRemoveByID_removes_first_match
      [⟨JSVal.num 1, JSVal.undefined⟩, ⟨JSVal.num 2, JSVal.undefined⟩,
        ⟨JSVal.num 3, JSVal.undefined⟩]
      [⟨JSVal.num 1, JSVal.undefined⟩] [⟨JSVal.num 3, JSVal.undefined⟩]
      ⟨JSVal.num 2, JSVal.null⟩ ⟨JSVal.num 2, JSVal.undefined⟩).2.1
    rfl (by decide) rfl

end WAMS
